import Mathlib

/-!
# Verification of the SmartVision multi-angle biometric capture core

Shallow embedding of the client-side capture/quality-scoring logic of the
SmartVision-AI-Pro frontend:

* `BiometricCapture.jsx` — the manual 5-angle capture flow whose session
  storage is a plain JS object keyed by angle label (`capturedImages`),
  with `captureImage`, `removeImage`, `retakeAll`, `registerBiometric`,
  `stopCamera` and the 5-second camera timeout.
* `BasicBiometricCapture.jsx` — the guided sequential 5-angle flow
  (`captureImage` appending to a list, `extractBiometricData`,
  `calculateSharpness`).
* `AdvancedBiometricCapture.jsx` — the server-driven flow (`startCamera`
  error mapping, `processFrame`).
* `RealTimeFaceDetection.jsx` — the smartphone-style capture gate.
* `faceRecognitionAPI.js` — `calculateImageQuality`, `detectLiveness`,
  `compareFaceEncodings`.

JS objects are modelled as association lists with key-replacing insertion
(preserving insertion order, as JS objects do); pixel arithmetic is
modelled exactly over `ℚ`; `Math.sqrt` appears as an explicit function
parameter `sqrtFn` (the properties proved do not depend on its values
beyond nonnegativity where stated); `Math.random()` appears as an explicit
stream `rand : Nat → ℚ` consumed in call order.
-/

/-! ## Captures and the angle-keyed session map (`BiometricCapture.jsx`)

`capturedImages` is a JS object mapping an angle label to
`{ blob, url, timestamp }` (`captureImage`, lines 135-157). -/

/-- One stored capture: `{ blob, url: imageUrl, timestamp: Date.now() }`. -/
structure Capture where
  blob : String
  url : String
  timestamp : Nat
  deriving DecidableEq, Repr

/-- The session storage: a JS object keyed by angle label, modelled as an
association list in insertion order. -/
abbrev CaptureMap := List (String × Capture)

/-- Property read `capturedImages[angle]` on a JS object: first (only)
binding for the key. -/
def objGet (k : String) : CaptureMap → Option Capture
  | [] => none
  | (k2, v) :: rest => if k2 = k then some v else objGet k rest

/-- The update `{ ...prev, [angle]: capture }` on a JS object: replaces the
value at an existing key in place (JS objects keep the original key
position), otherwise appends the new key at the end. -/
def objInsert (k : String) (v : Capture) : CaptureMap → CaptureMap
  | [] => [(k, v)]
  | (k2, v2) :: rest =>
      if k2 = k then (k, v) :: rest else (k2, v2) :: objInsert k v rest

/-- The statement `delete newImages[angle]` (`removeImage`, lines 168-172). -/
def objDelete (k : String) : CaptureMap → CaptureMap
  | [] => []
  | (k2, v2) :: rest =>
      if k2 = k then objDelete k rest else (k2, v2) :: objDelete k rest

/-- `Object.keys(capturedImages)`. -/
def objKeys (m : CaptureMap) : List String := m.map Prod.fst

/-- `Object.keys(capturedImages).length`, the stored-capture count used by
`capturedCount` (line 277) and `registerBiometric` (line 201). -/
def storedCount (m : CaptureMap) : Nat := m.length

/-- The required angle labels (`BiometricCapture.jsx` line 28). -/
def angles : List String := ["Center", "Left", "Right", "Up", "Down"]

/-- `setCapturedImages({})` in `retakeAll` (line 258): the mapping is
emptied entirely. -/
def retakeAll (_ : CaptureMap) : CaptureMap := []

theorem objGet_objInsert_self (k : String) (v : Capture) (m : CaptureMap) :
    objGet k (objInsert k v m) = some v := by
  induction m with
  | nil => simp [objInsert, objGet]
  | cons hd tl ih =>
    obtain ⟨k2, v2⟩ := hd
    by_cases h : k2 = k
    · simp [objInsert, objGet, h]
    · simp [objInsert, objGet, h, ih]

theorem objGet_objInsert_ne (k b : String) (v : Capture) (m : CaptureMap)
    (hne : b ≠ k) : objGet b (objInsert k v m) = objGet b m := by
  have hkb : k ≠ b := Ne.symm hne
  induction m with
  | nil => simp [objInsert, objGet, hkb]
  | cons hd tl ih =>
    obtain ⟨k2, v2⟩ := hd
    by_cases h : k2 = k
    · subst h
      simp [objInsert, objGet, hkb]
    · simp [objInsert, objGet, h, ih]

theorem storedCount_objInsert (k : String) (v : Capture) (m : CaptureMap) :
    storedCount (objInsert k v m) =
      if (objGet k m).isSome then storedCount m else storedCount m + 1 := by
  induction m with
  | nil => simp [objInsert, objGet, storedCount]
  | cons hd tl ih =>
    obtain ⟨k2, v2⟩ := hd
    by_cases h : k2 = k
    · simp [objInsert, objGet, h, storedCount]
    · simp only [objInsert, if_neg h, objGet, storedCount,
        List.length_cons] at ih ⊢
      rw [ih]
      by_cases h2 : (objGet k tl).isSome
      · simp [h2]
      · simp [h2]

theorem objGet_objDelete_self (k : String) (m : CaptureMap) :
    objGet k (objDelete k m) = none := by
  induction m with
  | nil => simp [objDelete, objGet]
  | cons hd tl ih =>
    obtain ⟨k2, v2⟩ := hd
    by_cases h : k2 = k
    · simpa [objDelete, h] using ih
    · simp [objDelete, objGet, h, ih]

theorem objGet_objDelete_ne (k b : String) (m : CaptureMap) (hne : b ≠ k) :
    objGet b (objDelete k m) = objGet b m := by
  induction m with
  | nil => simp [objDelete]
  | cons hd tl ih =>
    obtain ⟨k2, v2⟩ := hd
    by_cases h : k2 = k
    · subst h
      simp [objDelete, objGet, Ne.symm hne, ih]
    · simp [objDelete, objGet, h, ih]

theorem mem_objKeys_objInsert (a k : String) (v : Capture) (m : CaptureMap) :
    a ∈ objKeys (objInsert k v m) ↔ a = k ∨ a ∈ objKeys m := by
  induction m with
  | nil => simp [objInsert, objKeys]
  | cons hd tl ih =>
    obtain ⟨k2, v2⟩ := hd
    by_cases h : k2 = k
    · subst h
      simp [objInsert, objKeys]
    · simp only [objInsert, if_neg h, objKeys, List.map_cons,
        List.mem_cons] at ih ⊢
      rw [ih]
      tauto

theorem objKeys_objInsert_nodup (k : String) (v : Capture) (m : CaptureMap)
    (hnd : (objKeys m).Nodup) : (objKeys (objInsert k v m)).Nodup := by
  induction m with
  | nil => simp [objInsert, objKeys]
  | cons hd tl ih =>
    obtain ⟨k2, v2⟩ := hd
    simp only [objKeys, List.map_cons, List.nodup_cons] at hnd
    by_cases h : k2 = k
    · subst h
      simp only [objKeys, List.map_cons, List.nodup_cons]
      rw [show objInsert k2 v ((k2, v2) :: tl) = (k2, v) :: tl by
        simp [objInsert]]
      simp only [objKeys, List.map_cons, List.nodup_cons]
      exact ⟨hnd.1, hnd.2⟩
    · simp only [objInsert, if_neg h, objKeys, List.map_cons,
        List.nodup_cons]
      refine ⟨fun hmem => ?_, ih hnd.2⟩
      rcases (mem_objKeys_objInsert k2 k v tl).mp hmem with h2 | h2
      · exact h h2
      · exact hnd.1 h2

theorem mem_objKeys_objDelete (a k : String) (m : CaptureMap) :
    a ∈ objKeys (objDelete k m) → a ∈ objKeys m := by
  induction m with
  | nil => simp [objDelete]
  | cons hd tl ih =>
    obtain ⟨k2, v2⟩ := hd
    by_cases h : k2 = k
    · simp only [objDelete, if_pos h, objKeys, List.map_cons,
        List.mem_cons]
      exact fun hmem => Or.inr (ih hmem)
    · simp only [objDelete, if_neg h, objKeys, List.map_cons,
        List.mem_cons]
      rintro (h2 | h2)
      · exact Or.inl h2
      · exact Or.inr (ih h2)

theorem objKeys_objDelete_nodup (k : String) (m : CaptureMap)
    (hnd : (objKeys m).Nodup) : (objKeys (objDelete k m)).Nodup := by
  induction m with
  | nil => simp [objDelete, objKeys]
  | cons hd tl ih =>
    obtain ⟨k2, v2⟩ := hd
    simp only [objKeys, List.map_cons, List.nodup_cons] at hnd
    by_cases h : k2 = k
    · simpa only [objDelete, if_pos h] using ih hnd.2
    · simp only [objDelete, if_neg h, objKeys, List.map_cons,
        List.nodup_cons]
      exact ⟨fun hmem => hnd.1 (mem_objKeys_objDelete k2 k tl hmem),
        ih hnd.2⟩

/-! ## The capture session as a state machine (claim C1)

The only operations that touch `capturedImages` in `BiometricCapture.jsx`
are the `setCapturedImages` updates of `captureImage` (line 135, the
key-replacing object update), `removeImage` (lines 168-171, `delete`) and
`retakeAll` (line 258, reset to `{}`). `captureImage` is invoked only with
elements of `angles` (the `angles.map` render loop, line 398). -/

/-- One user-level session operation on the stored mapping. -/
inductive SessionOp where
  | capture (angle : String) (c : Capture)
  | remove (angle : String)
  | reset
  deriving DecidableEq, Repr

/-- Effect of one operation on `capturedImages`. -/
def applyOp (m : CaptureMap) : SessionOp → CaptureMap
  | .capture a c => objInsert a c m
  | .remove a => objDelete a m
  | .reset => retakeAll m

/-- Running a session from the initial empty mapping (`useState({})`). -/
def runOps (ops : List SessionOp) : CaptureMap :=
  ops.foldl applyOp []

/-- The UI only ever calls `captureImage` with one of the five configured
angle labels. -/
def opValid : SessionOp → Prop
  | .capture a _ => a ∈ angles
  | .remove _ => True
  | .reset => True

instance : DecidablePred opValid := by
  intro op
  cases op <;> simp only [opValid] <;> infer_instance

/-- Invariant carried by every reachable session state: keys come from
`angles` and are pairwise distinct. -/
def goodMap (m : CaptureMap) : Prop :=
  (∀ x ∈ objKeys m, x ∈ angles) ∧ (objKeys m).Nodup

theorem goodMap_applyOp (m : CaptureMap) (op : SessionOp)
    (hm : goodMap m) (hop : opValid op) : goodMap (applyOp m op) := by
  obtain ⟨hsub, hnd⟩ := hm
  cases op with
  | capture a c =>
    refine ⟨fun x hx => ?_, objKeys_objInsert_nodup a c m hnd⟩
    rcases (mem_objKeys_objInsert x a c m).mp hx with h | h
    · exact h ▸ hop
    · exact hsub x h
  | remove a =>
    exact ⟨fun x hx => hsub x (mem_objKeys_objDelete x a m hx),
      objKeys_objDelete_nodup a m hnd⟩
  | reset =>
    exact ⟨by simp [applyOp, retakeAll, objKeys],
      by simp [applyOp, retakeAll, objKeys]⟩

theorem goodMap_runOps (ops : List SessionOp)
    (hv : ∀ op ∈ ops, opValid op) : goodMap (runOps ops) := by
  suffices h : ∀ m, goodMap m → goodMap (ops.foldl applyOp m) by
    exact h [] ⟨by simp [objKeys], by simp [objKeys]⟩
  induction ops with
  | nil => exact fun m hm => hm
  | cons op rest ih =>
    intro m hm
    have hop : opValid op := hv op (by simp)
    exact ih (fun o ho => hv o (by simp [ho])) (applyOp m op)
      (goodMap_applyOp m op hm hop)

theorem goodMap_storedCount_le (m : CaptureMap) (hm : goodMap m) :
    storedCount m ≤ angles.length := by
  have hsp : List.Subperm (objKeys m) angles :=
    List.subperm_of_subset hm.2 (fun x hx => hm.1 x hx)
  have := hsp.length_le
  simpa [storedCount, objKeys] using this

/-- **C1.** A capture session stores at most one `Capture` per angle label:
for every sequence of session operations (captures, removals, resets) the
stored-capture count never exceeds the number of distinct required angle
labels, and accepting a capture for an angle that already holds one
replaces the stored value in place without growing the mapping. -/
theorem captureSession_one_capture_per_angle :
    (∀ ops : List SessionOp, (∀ op ∈ ops, opValid op) →
        storedCount (runOps ops) ≤ angles.length) ∧
    (∀ (m : CaptureMap) (k : String) (c : Capture),
        objGet k (objInsert k c m) = some c) ∧
    (∀ (m : CaptureMap) (k : String) (c : Capture),
        (objGet k m).isSome = true →
        storedCount (objInsert k c m) = storedCount m) := by
  refine ⟨fun ops hv => goodMap_storedCount_le _ (goodMap_runOps ops hv),
    fun m k c => objGet_objInsert_self k c m, fun m k c h => ?_⟩
  rw [storedCount_objInsert, if_pos h]

/-- Witness for C1 at a concrete session: capturing `Center` twice and
`Left` once stores two captures, and re-capturing an occupied angle keeps
the count unchanged. -/
theorem captureSession_one_capture_per_angle_witness :
    storedCount (runOps
      [SessionOp.capture "Center" ⟨"b1", "u1", 1⟩,
       SessionOp.capture "Center" ⟨"b2", "u2", 2⟩,
       SessionOp.capture "Left" ⟨"b3", "u3", 3⟩]) ≤ angles.length ∧
    storedCount (objInsert "Center" ⟨"b4", "u4", 4⟩
      [("Center", ⟨"b1", "u1", 1⟩), ("Left", ⟨"b3", "u3", 3⟩)]) =
      storedCount [("Center", ⟨"b1", "u1", 1⟩), ("Left", ⟨"b3", "u3", 3⟩)] :=
  ⟨captureSession_one_capture_per_angle.1 _ (by decide),
   captureSession_one_capture_per_angle.2.2 _ _ _ (by decide)⟩

/-! ## Completion predicates (claim C2)

`BiometricCapture.jsx` line 278: `const canRegister = capturedCount >= 2;`
(the quick 2-of-5 flow). `BasicBiometricCapture.jsx` drives the strict
sequential 5-of-5 flow: `captureImage` (lines 64-109) appends a capture
for `angles[currentAngle]`, slices to at most 5, and advances
`currentAngle`; the UI switches to the complete state once
`capturedImages.length >= 5`. -/

/-- The register-enabling predicate of the quick flow
(`capturedCount >= 2`). -/
def canRegister (m : CaptureMap) : Bool := decide (2 ≤ storedCount m)

/-- One capture of the sequential flow:
`{ angle, image, timestamp, ... }`. -/
structure BasicCapture where
  angle : String
  image : String
  timestamp : Nat
  deriving DecidableEq, Repr

/-- Component state of the sequential flow: the `capturedImages` list and
the `currentAngle` index. -/
structure BasicState where
  captured : List BasicCapture
  currentAngle : Nat
  deriving DecidableEq, Repr

/-- The five angle labels of the sequential flow, already in stored form:
`angles[i].name.toLowerCase().replace(' ', '_')`
(`BasicBiometricCapture.jsx` lines 12-18 and 86). -/
def anglesBasic : List String :=
  ["frontal", "left_profile", "right_profile", "up_angle", "down_angle"]

/-- `captureImage` of `BasicBiometricCapture.jsx`: no-op once five captures
are stored; otherwise appends the capture for the current angle, keeps at
most five (`updated.slice(0, 5)`), and advances `currentAngle` up to the
last index (`angles.length - 1 = 4`). -/
def basicCaptureImage (s : BasicState) (image : String) (now : Nat) :
    BasicState :=
  if 5 ≤ s.captured.length then s
  else
    { captured :=
        (s.captured ++
          [(⟨anglesBasic.getD s.currentAngle "", image, now⟩ : BasicCapture)]).take 5,
      currentAngle :=
        if s.currentAngle < 4 then s.currentAngle + 1 else s.currentAngle }

/-- Running the sequential flow from its initial state
(`useState([])`, `useState(0)`) over a list of offered frames. -/
def runBasic (imgs : List (String × Nat)) : BasicState :=
  imgs.foldl (fun t p => basicCaptureImage t p.1 p.2) ⟨[], 0⟩

/-- Completion of the sequential flow: the UI switches to the
complete/register state exactly when `capturedImages.length >= 5`. -/
def basicComplete (s : BasicState) : Bool := decide (5 ≤ s.captured.length)

/-- Invariant of every reachable state of the sequential flow. -/
def basicInv (s : BasicState) : Prop :=
  s.captured.length ≤ 5 ∧
  s.captured.map BasicCapture.angle = anglesBasic.take s.captured.length ∧
  s.currentAngle = min s.captured.length 4

theorem anglesBasic_take_succ (n : Nat) (hn : n < 5) :
    anglesBasic.take n ++ [anglesBasic.getD n ""] =
      anglesBasic.take (n + 1) := by
  interval_cases n <;> rfl

theorem basicInv_step (s : BasicState) (img : String) (now : Nat)
    (h : basicInv s) :
    basicInv (basicCaptureImage s img now) ∧
    (basicCaptureImage s img now).captured.length =
      min (s.captured.length + 1) 5 := by
  obtain ⟨hle, hmap, hcur⟩ := h
  by_cases hfull : 5 ≤ s.captured.length
  · simp only [basicCaptureImage, if_pos hfull]
    exact ⟨⟨hle, hmap, hcur⟩, by omega⟩
  · have hlt : s.captured.length < 5 := by omega
    have hcur2 : s.currentAngle = s.captured.length := by
      rw [hcur]; omega
    have htake : (s.captured ++
        [(⟨anglesBasic.getD s.currentAngle "", img, now⟩ : BasicCapture)]).take 5 =
        s.captured ++ [⟨anglesBasic.getD s.currentAngle "", img, now⟩] := by
      apply List.take_of_length_le
      simp
      omega
    simp only [basicCaptureImage, if_neg hfull, htake]
    refine ⟨⟨by simp; omega, ?_, ?_⟩, by simp; omega⟩
    · simp only [List.map_append, List.map_cons, List.map_nil, hmap,
        List.length_append, List.length_cons, List.length_nil]
      rw [hcur2]
      exact anglesBasic_take_succ s.captured.length hlt
    · simp only [List.length_append, List.length_cons, List.length_nil]
      rw [hcur2]
      split_ifs <;> omega

theorem runBasic_foldl_inv (imgs : List (String × Nat)) :
    ∀ s : BasicState, basicInv s →
      basicInv (imgs.foldl (fun t p => basicCaptureImage t p.1 p.2) s) ∧
      (imgs.foldl (fun t p => basicCaptureImage t p.1 p.2) s).captured.length =
        min (s.captured.length + imgs.length) 5 := by
  induction imgs with
  | nil =>
    intro s hs
    refine ⟨hs, ?_⟩
    have := hs.1
    simp
    omega
  | cons p rest ih =>
    intro s hs
    have hstep := basicInv_step s p.1 p.2 hs
    have hrest := ih (basicCaptureImage s p.1 p.2) hstep.1
    simp only [List.foldl_cons]
    refine ⟨hrest.1, ?_⟩
    rw [hrest.2, hstep.2]
    have := hs.1
    simp only [List.length_cons]
    omega

theorem runBasic_spec (imgs : List (String × Nat)) :
    basicInv (runBasic imgs) ∧
    (runBasic imgs).captured.length = min imgs.length 5 := by
  have h0 : basicInv ⟨[], 0⟩ := ⟨by simp, by simp, by simp⟩
  have h := runBasic_foldl_inv imgs ⟨[], 0⟩ h0
  simpa [runBasic] using h

/-- **C2.** The completion predicate is true iff the number of distinct
stored angles reaches the configured minimum, in the minimum-2 flow
(`canRegister`) and in the minimum-5 sequential flow alike; in the
sequential flow completion becomes true exactly on the fifth capture (all
captures being for distinct angles) and not before. -/
theorem completion_iff_min_angles :
    (∀ m : CaptureMap, canRegister m = true ↔ 2 ≤ storedCount m) ∧
    (∀ imgs : List (String × Nat),
        (basicComplete (runBasic imgs) = true ↔ 5 ≤ imgs.length) ∧
        ((runBasic imgs).captured.map BasicCapture.angle).Nodup) := by
  constructor
  · intro m
    simp [canRegister]
  · intro imgs
    have h := runBasic_spec imgs
    constructor
    · simp only [basicComplete, decide_eq_true_eq]
      rw [h.2]
      omega
    · rw [h.1.2.1]
      exact (List.take_sublist _ _).nodup (by decide)

/-! ## Building the registration payload (claim C3)

`registerBiometric` (`BiometricCapture.jsx` lines 200-249): refuses with
an insufficient-captures error when `imageCount < 2 || !employeeId`;
otherwise it requires the `Center` capture and emits a result built from
the Center image and the list of captured angle labels; if `Center` is
absent it fails with a Center-not-found error. -/

/-- The successful result object of `registerBiometric` (the fields
derived from the session; the constant biometric metadata is omitted). -/
structure RegistrationPayload where
  face_image : String
  employee_id : String
  angles_registered : List String
  total_angles : Nat
  deriving DecidableEq, Repr

/-- `registerBiometric`: the branch structure of lines 200-243. -/
def registerBiometric (employeeId : Option String) (m : CaptureMap) :
    Except String RegistrationPayload :=
  if storedCount m < 2 ∨ employeeId = none then
    Except.error "Need at least 2 captured images and valid employee ID"
  else
    match objGet "Center" m, employeeId with
    | some c, some eid =>
        Except.ok ⟨c.blob, eid, objKeys m, storedCount m⟩
    | _, _ => Except.error "Center image not found"

/-- **C3 counterexample.** A session holding captures for `Left` and
`Right` satisfies the completion predicate (`canRegister` is true), yet
`registerBiometric` emits no payload: it fails with the Center-not-found
error. This refutes the claim that a true completion predicate always
yields a `RegistrationPayload` of exactly the stored captures. -/
theorem registerBiometric_complete_without_payload :
    canRegister [("Left", ⟨"bL", "uL", 1⟩), ("Right", ⟨"bR", "uR", 2⟩)] = true ∧
    registerBiometric (some "E1")
        [("Left", ⟨"bL", "uL", 1⟩), ("Right", ⟨"bR", "uR", 2⟩)] =
      Except.error "Center image not found" := by
  constructor
  · rfl
  · rfl

/-- **C3 (amended).** When the completion predicate is false (or no
employee id is given), `registerBiometric` fails with the
insufficient-captures error and emits no payload; when it is true it
additionally requires the `Center` capture: with `Center` stored it
returns the payload built from the Center image and exactly the stored
angle labels, and with `Center` missing it fails with the
Center-not-found error. No payload is ever emitted below the minimum. -/
theorem registerBiometric_gating (eid : Option String) (m : CaptureMap) :
    (storedCount m < 2 ∨ eid = none →
        registerBiometric eid m =
          Except.error "Need at least 2 captured images and valid employee ID") ∧
    (∀ e c, 2 ≤ storedCount m → eid = some e → objGet "Center" m = some c →
        registerBiometric eid m =
          Except.ok ⟨c.blob, e, objKeys m, storedCount m⟩) ∧
    (∀ e, 2 ≤ storedCount m → eid = some e → objGet "Center" m = none →
        registerBiometric eid m = Except.error "Center image not found") := by
  refine ⟨fun h => ?_, fun e c h2 he hc => ?_, fun e h2 he hc => ?_⟩
  · simp only [registerBiometric, if_pos h]
  · subst he
    have hcond : ¬(storedCount m < 2 ∨ (some e : Option String) = none) := by
      simp
      omega
    simp only [registerBiometric, if_neg hcond, hc]
  · subst he
    have hcond : ¬(storedCount m < 2 ∨ (some e : Option String) = none) := by
      simp
      omega
    simp only [registerBiometric, if_neg hcond, hc]

/-- Witness for amended C3 exercising all three branches at concrete
sessions. -/
theorem registerBiometric_gating_witness :
    registerBiometric (some "E1")
        [("Center", ⟨"bC", "uC", 1⟩), ("Left", ⟨"bL", "uL", 2⟩)] =
      Except.ok ⟨"bC", "E1", ["Center", "Left"], 2⟩ ∧
    registerBiometric (some "E1") [] =
      Except.error "Need at least 2 captured images and valid employee ID" ∧
    registerBiometric (some "E1")
        [("Left", ⟨"bL", "uL", 2⟩), ("Up", ⟨"bU", "uU", 3⟩)] =
      Except.error "Center image not found" := by
  refine ⟨?_, ?_, ?_⟩
  · exact (registerBiometric_gating (some "E1")
      [("Center", ⟨"bC", "uC", 1⟩), ("Left", ⟨"bL", "uL", 2⟩)]).2.1
      "E1" ⟨"bC", "uC", 1⟩ (by decide) rfl (by decide)
  · exact (registerBiometric_gating (some "E1") []).1 (Or.inl (by decide))
  · exact (registerBiometric_gating (some "E1")
      [("Left", ⟨"bL", "uL", 2⟩), ("Up", ⟨"bU", "uU", 3⟩)]).2.2
      "E1" (by decide) rfl (by decide)

/-! ## Retake operations (claim C4)

`removeImage(angle)` (`BiometricCapture.jsx` lines 164-173) deletes the
single key `angle` from the mapping; `retakeAll` (lines 251-264) resets
the mapping to `{}`. -/

/-- **C4.** `removeImage(a)` removes exactly the capture stored for angle
`a` and leaves every other angle's capture unchanged; `retakeAll` empties
the mapping entirely. -/
theorem retake_removes_exactly (m : CaptureMap) (a : String) :
    objGet a (objDelete a m) = none ∧
    (∀ b, b ≠ a → objGet b (objDelete a m) = objGet b m) ∧
    retakeAll m = [] := by
  exact ⟨objGet_objDelete_self a m,
    fun b hb => objGet_objDelete_ne a b m hb, rfl⟩

/-- Witness for C4 on a concrete three-angle session. -/
theorem retake_removes_exactly_witness :
    objGet "Left" (objDelete "Left"
      [("Center", ⟨"b1", "u1", 1⟩), ("Left", ⟨"b2", "u2", 2⟩),
       ("Up", ⟨"b3", "u3", 3⟩)]) = none ∧
    objGet "Up" (objDelete "Left"
      [("Center", ⟨"b1", "u1", 1⟩), ("Left", ⟨"b2", "u2", 2⟩),
       ("Up", ⟨"b3", "u3", 3⟩)]) =
      objGet "Up"
      [("Center", ⟨"b1", "u1", 1⟩), ("Left", ⟨"b2", "u2", 2⟩),
       ("Up", ⟨"b3", "u3", 3⟩)] := by
  refine ⟨(retake_removes_exactly _ "Left").1, ?_⟩
  exact (retake_removes_exactly
    [("Center", ⟨"b1", "u1", 1⟩), ("Left", ⟨"b2", "u2", 2⟩),
     ("Up", ⟨"b3", "u3", 3⟩)] "Left").2.1 "Up" (by decide)

/-! ## Per-frame quality analysis (claim C5)

`extractBiometricData` / `calculateSharpness`
(`BasicBiometricCapture.jsx` lines 111-178) and `calculateImageQuality` /
`detectLiveness` (`faceRecognitionAPI.js` lines 429-477). Pixel data is
the RGBA byte array `data` with `data[(y*width+x)*4]` the red channel.
`Math.sqrt` is the abstract parameter `sqrtFn`; `Math.random()` is the
stream `rand`, consumed in call order. -/

/-- One RGBA pixel (alpha unused by every analyzed formula). -/
structure Pixel where
  r : ℚ
  g : ℚ
  b : ℚ
  deriving DecidableEq, Repr

/-- An image buffer: `getImageData` dimensions plus pixel access
(`pix x y` is the pixel at column `x`, row `y`). -/
structure Image where
  width : Nat
  height : Nat
  pix : Nat → Nat → Pixel

/-- Sum of `f 0 + ... + f (n-1)`, the accumulation pattern of the JS
`for` loops. -/
def sumOver (n : Nat) (f : Nat → ℚ) : ℚ := ((List.range n).map f).sum

/-- Luminance `0.299*r + 0.587*g + 0.114*b` (line 126). -/
def luma (p : Pixel) : ℚ := 299/1000 * p.r + 587/1000 * p.g + 114/1000 * p.b

/-- `pixelCount` as a rational (the loops count every pixel once). -/
def pixelCountQ (img : Image) : ℚ := ((img.width * img.height : Nat) : ℚ)

/-- `avgBrightness = totalBrightness / pixelCount` (lines 120-131). -/
def avgBrightness (img : Image) : ℚ :=
  sumOver img.height (fun y => sumOver img.width (fun x => luma (img.pix x y))) /
    pixelCountQ img

/-- `contrast = Math.sqrt(totalContrast / pixelCount)` where
`totalContrast` sums squared deviations of luma from `avgBrightness`
(lines 134-142). -/
def contrastOf (sqrtFn : ℚ → ℚ) (img : Image) : ℚ :=
  sqrtFn (sumOver img.height (fun y => sumOver img.width
      (fun x => (luma (img.pix x y) - avgBrightness img) ^ 2)) /
    pixelCountQ img)

/-- The X Sobel response of `calculateSharpness` (lines 166-168); the
source reads only the red channel (`data[... * 4]`) for the gradient,
the computed `gray` value being unused. -/
def gxRed (img : Image) (x y : Nat) : ℚ :=
  -(img.pix (x - 1) (y - 1)).r + (img.pix (x + 1) (y - 1)).r +
    -(2 * (img.pix (x - 1) y).r) + 2 * (img.pix (x + 1) y).r +
    -(img.pix (x - 1) (y + 1)).r + (img.pix (x + 1) (y + 1)).r

/-- The Y Sobel response of `calculateSharpness` (lines 170-171). -/
def gyRed (img : Image) (x y : Nat) : ℚ :=
  -(img.pix (x - 1) (y - 1)).r + -(2 * (img.pix x (y - 1)).r) +
    -(img.pix (x + 1) (y - 1)).r + (img.pix (x - 1) (y + 1)).r +
    2 * (img.pix x (y + 1)).r + (img.pix (x + 1) (y + 1)).r

/-- `calculateSharpness` (lines 154-178): mean Sobel gradient magnitude
over the interior pixels. -/
def calculateSharpness (sqrtFn : ℚ → ℚ) (img : Image) : ℚ :=
  sumOver (img.height - 2) (fun y0 => sumOver (img.width - 2) (fun x0 =>
      sqrtFn (gxRed img (x0 + 1) (y0 + 1) ^ 2 +
        gyRed img (x0 + 1) (y0 + 1) ^ 2))) /
    (((img.width - 2) * (img.height - 2) : Nat) : ℚ)

/-- `calculateColorDistribution` (lines 180-195). -/
structure ColorDistribution where
  red : ℚ
  green : ℚ
  blue : ℚ
  deriving DecidableEq, Repr

def calculateColorDistribution (img : Image) : ColorDistribution :=
  ⟨sumOver img.height (fun y => sumOver img.width (fun x => (img.pix x y).r)) /
      pixelCountQ img,
   sumOver img.height (fun y => sumOver img.width (fun x => (img.pix x y).g)) /
      pixelCountQ img,
   sumOver img.height (fun y => sumOver img.width (fun x => (img.pix x y).b)) /
      pixelCountQ img⟩

/-- `extractFaceRegionData` (lines 197-214). -/
structure FaceRegion where
  centerX : Nat
  centerY : Nat
  regionSize : ℚ
  pixelDensity : Nat
  aspectRatio : ℚ
  deriving DecidableEq, Repr

def extractFaceRegionData (img : Image) : FaceRegion :=
  ⟨img.width / 2, img.height / 2, ((min img.width img.height : Nat) : ℚ) * 3/10,
   img.width * img.height, (img.width : ℚ) / (img.height : ℚ)⟩

/-- The bundle returned by `extractBiometricData` (lines 144-151);
`timestamp: Date.now()` is the explicit `now` argument. -/
structure BiometricData where
  brightness : ℚ
  contrast : ℚ
  sharpness : ℚ
  colorDistribution : ColorDistribution
  faceRegionData : FaceRegion
  timestamp : Nat
  deriving DecidableEq, Repr

def extractBiometricData (sqrtFn : ℚ → ℚ) (img : Image) (now : Nat) :
    BiometricData :=
  ⟨avgBrightness img, contrastOf sqrtFn img, calculateSharpness sqrtFn img,
   calculateColorDistribution img, extractFaceRegionData img, now⟩

/-- The result of `calculateImageQuality` (`faceRecognitionAPI.js`
lines 429-462), which averages the three raw channels instead of luma. -/
structure QualityResult where
  brightness : ℚ
  contrast : ℚ
  sharpness : ℚ
  overall : ℚ
  deriving DecidableEq, Repr

def calculateImageQuality (sqrtFn : ℚ → ℚ) (img : Image) : QualityResult :=
  let count := pixelCountQ img
  let rawBrightness := sumOver img.height (fun y => sumOver img.width
      (fun x => ((img.pix x y).r + (img.pix x y).g + (img.pix x y).b) / 3)) /
    count / 255
  let mean := rawBrightness * 255
  let variance := sumOver img.height (fun y => sumOver img.width
      (fun x => (((img.pix x y).r + (img.pix x y).g + (img.pix x y).b) / 3 -
        mean) ^ 2))
  let contrast := sqrtFn (variance / count) / 128
  let sharp := min (contrast * 2) 1
  let brightnessScore := 1 - |rawBrightness - 55/100| * 2
  ⟨max 0 brightnessScore, min contrast 1, sharp,
   (max 0 brightnessScore + min contrast 1 + sharp) / 3⟩

/-- The result of `detectLiveness` (lines 465-477): `depthAnalysis`,
`microMovements` and `blinkDetection` each consume one `Math.random()`
draw. -/
structure LivenessResult where
  textureAnalysis : ℚ
  depthAnalysis : ℚ
  microMovements : ℚ
  blinkDetection : Bool
  overall : ℚ
  deriving DecidableEq, Repr

def detectLiveness (sqrtFn : ℚ → ℚ) (img : Image) (rand : Nat → ℚ) :
    LivenessResult :=
  let quality := calculateImageQuality sqrtFn img
  ⟨quality.sharpness, rand 0 * (3/10) + 7/10, rand 1 * (2/5) + 3/5,
   decide (1/2 < rand 2), (quality.sharpness + 7/10 + 3/5) / 3⟩

/-- The uniform gray 100-by-100 synthetic buffer of the spec scenario. -/
def uniformGray100 : Image := ⟨100, 100, fun _ _ => ⟨128, 128, 128⟩⟩

/-- **C5.** The deterministic quality sub-scores — brightness (mean
luma), contrast (standard deviation of luma), sharpness (mean Sobel
gradient magnitude) — are pure functions of the pixel buffer: two
evaluations on the same buffer agree (in particular they are independent
of the capture timestamp and of the random stream), and likewise for
`calculateImageQuality`; by contrast the random stream does change the
liveness bundle, so the independence is not vacuous. -/
theorem quality_subscores_deterministic :
    (∀ (sqrtFn : ℚ → ℚ) (img : Image) (t1 t2 : Nat),
        (extractBiometricData sqrtFn img t1).brightness =
          (extractBiometricData sqrtFn img t2).brightness ∧
        (extractBiometricData sqrtFn img t1).contrast =
          (extractBiometricData sqrtFn img t2).contrast ∧
        (extractBiometricData sqrtFn img t1).sharpness =
          (extractBiometricData sqrtFn img t2).sharpness) ∧
    (∀ (sqrtFn : ℚ → ℚ) (img : Image),
        calculateImageQuality sqrtFn img = calculateImageQuality sqrtFn img) ∧
    (∀ (sqrtFn : ℚ → ℚ) (img : Image) (r1 r2 : Nat → ℚ),
        (detectLiveness sqrtFn img r1).textureAnalysis =
          (detectLiveness sqrtFn img r2).textureAnalysis) ∧
    detectLiveness id uniformGray100 (fun _ => 0) ≠
      detectLiveness id uniformGray100 (fun _ => 1) := by
  refine ⟨fun sqrtFn img t1 t2 => ⟨rfl, rfl, rfl⟩, fun sqrtFn img => rfl,
    fun sqrtFn img r1 r2 => rfl, fun h => ?_⟩
  have h2 := congrArg LivenessResult.depthAnalysis h
  simp only [detectLiveness] at h2
  norm_num at h2

/-! ## The frame-acceptance gate (claim C6)

`captureSmartphoneLikeFaces` (`RealTimeFaceDetection.jsx` lines 150-154)
starts a capture run only when
`!(!faceDetected || faceQuality < 40 || detectionConfidence < 0.7)`;
the numbers 40 and 0.7 are literal constants in the source, and the
function takes no options argument. -/

/-- The acceptance gate exactly as coded: face detected, quality at least
40 and confidence at least 0.7, with both bounds hard-coded. -/
def captureGate (faceDetected : Bool) (faceQuality detectionConfidence : ℚ) :
    Bool :=
  !(!faceDetected || decide (faceQuality < 40) ||
    decide (detectionConfidence < 7/10))

/-- Threshold configuration as the claim describes it (overridable
`minQuality` / `minConfidence` options). -/
structure CaptureThresholds where
  minQuality : ℚ
  minConfidence : ℚ
  deriving DecidableEq, Repr

/-- Modelled from the spec wording of the claim (for comparison with the
source-derived `captureGate`): a frame is accepted iff confidence and
quality clear the *configured* thresholds. -/
def acceptFrameSpec (opts : CaptureThresholds)
    (faceQuality detectionConfidence : ℚ) : Bool :=
  decide (opts.minConfidence ≤ detectionConfidence) &&
    decide (opts.minQuality ≤ faceQuality)

/-- **C6 counterexample.** The source gate ignores any configured
thresholds: overriding `minQuality` to 50 should reject a frame of
quality 45, but the coded gate still accepts it (its bounds 40 and 0.7
are hard-coded); the two agree only at the hard-coded values. -/
theorem captureGate_not_configurable :
    captureGate true 45 (9/10) = true ∧
    acceptFrameSpec ⟨50, 7/10⟩ 45 (9/10) = false ∧
    acceptFrameSpec ⟨40, 7/10⟩ 45 (9/10) = true := by
  refine ⟨?_, ?_, ?_⟩ <;> norm_num [captureGate, acceptFrameSpec]

/-- **C6 (amended).** A frame passes the capture gate iff the face is
detected, quality is at least 40 and confidence is at least 0.7 — both
bounds being hard-coded constants of the source, not configurable
options. -/
theorem captureGate_iff (d : Bool) (q c : ℚ) :
    captureGate d q c = true ↔ d = true ∧ 40 ≤ q ∧ 7/10 ≤ c := by
  cases d <;> simp [captureGate, not_lt]

/-! ## Camera lifecycle: stop and capture guards (claim C7)

`stopCamera` (`BiometricCapture.jsx` lines 38-44) and the readiness guard
of `captureImage` (lines 104-116), including the automatic stop once all
five captures are stored (lines 145-154). -/

/-- The component state of `BiometricCapture.jsx` relevant to the camera
lifecycle: `stream` (device handle held), `isVideoReady`, `cameraError`
and the stored mapping. -/
structure CamState where
  stream : Bool
  isVideoReady : Bool
  cameraError : Option String
  captured : CaptureMap
  deriving DecidableEq, Repr

/-- `stopCamera`: stops the tracks and clears `stream`/`isVideoReady`
when a stream is held; does nothing otherwise. -/
def stopCamera (s : CamState) : CamState :=
  if s.stream then { s with stream := false, isVideoReady := false } else s

/-- The frame offered to `captureImage`: the video's dimensions and the
encoded image. -/
structure Frame where
  width : Nat
  height : Nat
  data : String
  deriving DecidableEq, Repr

/-- `captureImage` (lines 104-162): refuses with a user-visible error
when the refs, the ready flag or the stream are missing, or when the
frame has a zero dimension; otherwise stores the capture under `angle`
(replacing any previous one) and auto-stops the camera once five angles
are stored. -/
def captureImage (s : CamState) (refsOk : Bool) (angle : String)
    (f : Frame) (now : Nat) : CamState :=
  if refsOk = false ∨ s.isVideoReady = false ∨ s.stream = false then
    { s with cameraError := some "Camera not ready for capture" }
  else if f.width = 0 ∨ f.height = 0 then
    { s with cameraError := some "Video dimensions not available" }
  else
    let m2 := objInsert angle ⟨f.data, f.data, now⟩ s.captured
    { s with
      captured := m2,
      cameraError := none,
      stream := if storedCount m2 = 5 then false else s.stream,
      isVideoReady := if storedCount m2 = 5 then false else s.isVideoReady }

theorem stopCamera_stream_false (s : CamState) :
    (stopCamera s).stream = false := by
  by_cases h : s.stream = true
  · simp [stopCamera, h]
  · have hf : s.stream = false := by simpa using h
    simp [stopCamera, hf]

/-- **C7.** `stopCamera` is idempotent, and once it has run no capture is
ever added: any `captureImage` call against the stopped state — however
late it fires — leaves the stored mapping unchanged (it only reports the
not-ready error). -/
theorem stopCamera_idempotent_no_capture_after :
    (∀ s : CamState, stopCamera (stopCamera s) = stopCamera s) ∧
    (∀ (s : CamState) (refsOk : Bool) (a : String) (f : Frame) (now : Nat),
        (captureImage (stopCamera s) refsOk a f now).captured =
          (stopCamera s).captured) := by
  constructor
  · intro s
    by_cases h : s.stream = true
    · simp [stopCamera, h]
    · have hf : s.stream = false := by simpa using h
      simp [stopCamera, hf]
  · intro s refsOk a f now
    have hs := stopCamera_stream_false s
    simp [captureImage, hs]

/-! ## Start failures: timeout and permission mapping (claim C8)

The 5-second timer of `BiometricCapture.jsx` lines 16-26 guards its
camera-timeout error with `if (!stream && !cameraError)` — but the
effect that arms it has an empty dependency list, so the `setTimeout`
callback closes over the first render's `stream` and `cameraError`
(both `useState(null)`) and never sees the deadline-time state: as the
program runs, the guard is evaluated on the captured mount-time nulls
and is identically true. `startCamera` of
`AdvancedBiometricCapture.jsx` (lines 114-125) maps the acquisition
failure classes to distinct user-visible messages, and on success starts
the server session and begins collecting. -/

/-- `getUserMedia` failure classes distinguished by the source
(`error.name`). -/
inductive CamFailure where
  | notAllowed
  | notFound
  | notReadable
  | otherFailure (msg : String)
  deriving DecidableEq, Repr

/-- The distinct user-visible messages of
`AdvancedBiometricCapture.startCamera`. -/
inductive CamMessage where
  | permissionDenied
  | noCameraFound
  | cameraInUse
  | genericError (msg : String)
  deriving DecidableEq, Repr

/-- The error mapping of lines 116-124. -/
def mapCameraError : CamFailure → CamMessage
  | .notAllowed => .permissionDenied
  | .notFound => .noCameraFound
  | .notReadable => .cameraInUse
  | .otherFailure msg => .genericError msg

/-- The timeout delay (line 21). -/
def cameraTimeoutMs : Nat := 5000

/-- The guard expression `!stream && !cameraError` written in the timer
callback (line 18), as a function of whatever state it is applied to. -/
def timeoutCond (stream : Bool) (cameraError : Option String) : Bool :=
  !stream && cameraError.isNone

/-- The `stream` value the timer callback actually reads: the effect of
lines 16-26 runs once (empty dependency list), so the callback closes
over the first render's `stream` — `useState(null)`, i.e. absent. -/
def mountStream : Bool := false

/-- The `cameraError` value the timer callback actually reads: the first
render's `useState(null)`. -/
def mountCameraError : Option String := none

/-- The timer as the program runs it: the guard applied to the captured
mount-time values — never to the state at the 5-second deadline. -/
def timeoutFiresAsCoded : Bool := timeoutCond mountStream mountCameraError

/-- Result of `startCamera` in the server-driven flow. -/
inductive StartOutcome where
  | collecting (sessionId : String)
  | failed (msg : CamMessage)
  deriving DecidableEq, Repr

/-- `startCamera` of `AdvancedBiometricCapture.jsx`: a failed device
acquisition surfaces the mapped message; on success the session starts
and the component begins collecting (frame processing starts once
session id and stream are both set). -/
def startCameraAdv (acq : Option CamFailure) (sessionResp : Option String) :
    StartOutcome :=
  match acq with
  | some e => .failed (mapCameraError e)
  | none =>
    match sessionResp with
    | some sid => .collecting sid
    | none => .failed (.genericError "Failed to start session")

/-- **C8 (code bug).** The claim — and the evident intent of the guard
`if (!stream && !cameraError)` — is that the timeout error fires exactly
when no stream and no other error are present at the 5-second deadline,
in particular never after a successful acquisition. As coded, the timer
callback evaluates that guard on the captured mount-time values (no
stream, no error), so it is identically true: the timeout error is
surfaced 5 seconds after mount even in a run whose deadline-time state
holds an acquired stream — a state on which the written guard is false.
The remaining halves of the claim do hold of the code: the
permission-denied message arises exactly from the user-declined
(`NotAllowedError`) failure, and a successful start enters the
collecting state. -/
theorem timeout_fires_despite_acquired_stream :
    timeoutFiresAsCoded = true ∧
    timeoutCond true none = false ∧
    (∀ (stream : Bool) (err : Option String),
        timeoutCond stream err = true ↔ stream = false ∧ err = none) ∧
    (∀ e : CamFailure,
        mapCameraError e = CamMessage.permissionDenied ↔
          e = CamFailure.notAllowed) ∧
    (∀ sid : String,
        startCameraAdv none (some sid) = StartOutcome.collecting sid) ∧
    (∀ (e : CamFailure) (r : Option String),
        startCameraAdv (some e) r = StartOutcome.failed (mapCameraError e)) ∧
    cameraTimeoutMs = 5000 := by
  refine ⟨rfl, rfl, ?_, ?_, fun sid => rfl, fun e r => rfl, rfl⟩
  · intro stream err
    cases stream <;> cases err <;> simp [timeoutCond]
  · intro e
    cases e <;> simp [mapCameraError]

/-! ## Invalid-frame handling (claim C9)

`processFrame` (`AdvancedBiometricCapture.jsx` lines 136-227): frames
sampled while the device is not ready (`readyState !== 4`) or with zero
dimensions are skipped with a bare `return` — no message, no state
change — and the interval samples again 200ms later; failed server
exchanges in the loop are likewise only logged. The manual
`captureImage` (`BiometricCapture.jsx` lines 104-116), by contrast, sets
a user-visible `cameraError` for the same invalid-frame conditions. -/

/-- The per-frame analysis object mirrored into `currentAnalysis`. -/
structure AdvAnalysis where
  face_detected : Bool
  current_angle : Option String
  quality_score : ℚ
  retinal_quality : ℚ
  deriving DecidableEq, Repr

/-- The slice of `AdvancedBiometricCapture` state touched by
`processFrame`. -/
structure AdvState where
  currentAnalysis : AdvAnalysis
  messages : List String
  isComplete : Bool
  deriving DecidableEq, Repr

/-- The video element as seen by `processFrame`. -/
structure FrameInfo where
  readyState : Nat
  width : Nat
  height : Nat
  deriving DecidableEq, Repr

/-- Outcome of the `process-frame` server exchange. -/
inductive FrameResult where
  | httpError (status : Nat)
  | procError (msg : String)
  | okResult (face_detected : Bool) (current_angle : Option String)
      (quality : ℚ) (retinal : ℚ) (autoCaptured : Option String)
      (sessionComplete : Bool)
  deriving DecidableEq, Repr

/-- `processFrame`: early bare returns for a missing session, a
not-ready device (`readyState !== 4`) and zero-dimension frames; server
errors only logged; a successful result updates `currentAnalysis` and
appends capture/completion messages. -/
def processFrame (sessionActive : Bool) (s : AdvState) (f : FrameInfo)
    (r : FrameResult) : AdvState :=
  if sessionActive = false then s
  else if f.readyState ≠ 4 then s
  else if f.width = 0 ∨ f.height = 0 then s
  else
    match r with
    | .httpError _ => s
    | .procError _ => s
    | .okResult fd ca q rq auto complete =>
      let s1 : AdvState := { s with currentAnalysis := ⟨fd, ca, q, rq⟩ }
      let s2 : AdvState :=
        match auto with
        | some ang => { s1 with messages := (ang ++ " angle captured") :: s1.messages }
        | none => s1
      if complete then
        { s2 with isComplete := true,
                  messages := "All angles captured" :: s2.messages }
      else s2

/-- **C9 counterexample.** A zero-dimension frame offered to the manual
`captureImage` is not a silent no-op: it surfaces the user-visible
`cameraError` message (while indeed adding no capture), refuting the
claim that every invalid sampled frame surfaces no user-visible error
state. -/
theorem invalid_frame_surfaces_error :
    (captureImage ⟨true, true, none, []⟩ true "Center" ⟨0, 0, "d"⟩ 0).cameraError =
      some "Video dimensions not available" ∧
    (captureImage ⟨true, true, none, []⟩ true "Center" ⟨0, 0, "d"⟩ 0).captured =
      [] := by
  constructor <;> rfl

/-- **C9 (amended).** In the periodic sampling loop (`processFrame`) an
invalid frame — not-ready device or zero dimensions — is a silent no-op:
the state (analysis, messages, completion) is exactly unchanged and the
caller simply samples again on the next tick; the manual `captureImage`
path, however, surfaces invalid-frame conditions as the user-visible
`cameraError` state (storing nothing). -/
theorem invalid_frame_handling (active : Bool) (s : AdvState)
    (f : FrameInfo) (r : FrameResult) :
    (f.readyState ≠ 4 ∨ f.width = 0 ∨ f.height = 0 →
        processFrame active s f r = s) ∧
    (∀ (cs : CamState) (a : String) (fr : Frame) (now : Nat),
        cs.stream = true → cs.isVideoReady = true →
        fr.width = 0 ∨ fr.height = 0 →
        captureImage cs true a fr now =
          { cs with cameraError := some "Video dimensions not available" }) := by
  constructor
  · intro h
    unfold processFrame
    split_ifs with h1 h2 h3
    · rfl
    · rfl
    · rfl
    · rcases h with h | h
      · exact absurd h h2
      · exact absurd h h3
  · intro cs a fr now hs hv hwh
    have hcond : ¬((true : Bool) = false ∨ cs.isVideoReady = false ∨
        cs.stream = false) := by
      simp [hs, hv]
    simp only [captureImage, if_neg hcond, if_pos hwh]

/-- Witness for amended C9: a not-ready frame in the loop changes
nothing, and a zero-width frame in the manual path sets exactly the
user-visible error. -/
theorem invalid_frame_handling_witness :
    processFrame true ⟨⟨false, none, 0, 0⟩, [], false⟩ ⟨2, 640, 480⟩
        (FrameResult.okResult true none 50 50 none false) =
      ⟨⟨false, none, 0, 0⟩, [], false⟩ ∧
    captureImage ⟨true, true, none, []⟩ true "Left" ⟨0, 480, "d2"⟩ 3 =
      ⟨true, true, some "Video dimensions not available", []⟩ := by
  constructor
  · exact (invalid_frame_handling true ⟨⟨false, none, 0, 0⟩, [], false⟩
      ⟨2, 640, 480⟩ (FrameResult.okResult true none 50 50 none false)).1
      (Or.inl (by decide))
  · exact (invalid_frame_handling true ⟨⟨false, none, 0, 0⟩, [], false⟩
      ⟨2, 640, 480⟩ (FrameResult.okResult true none 50 50 none false)).2
      ⟨true, true, none, []⟩ "Left" ⟨0, 480, "d2"⟩ 3 rfl rfl (Or.inl rfl)

/-! ## Encoding comparison (claim C10)

`compareFaceEncodings` (`faceRecognitionAPI.js` lines 537-553). The JS
field `match` is rendered `isMatch`; the unequal-length branch returns an
object with no `distance` field, modelled as a `none` distance. The
similarity is a JS number that can be NaN: on empty equal-length
encodings both the accumulated distance and `Math.sqrt(0)` are 0, `0/0`
is NaN, and NaN propagates through `1 - x` and `Math.max(0, x)`, while
every `>=` comparison against NaN is false. A `none` similarity models
NaN. -/

/-- Result of `compareFaceEncodings`: a `none` similarity models NaN; a
`none` distance models the absent field of the unequal-length branch. -/
structure CompareResult where
  isMatch : Bool
  similarity : Option ℚ
  distance : Option ℚ
  deriving DecidableEq, Repr

/-- The accumulated `distance` sum of squared componentwise
differences. -/
def sumSqDiff (e1 e2 : List ℚ) : ℚ :=
  (List.zipWith (fun a b => (a - b) ^ 2) e1 e2).sum

/-- The default `threshold = 0.6` argument. -/
def compareDefaultThreshold : ℚ := 3/5

/-- `Math.max(0, 1 - d / s)` under JS number semantics for finite `d`
and `s`: with `s ≠ 0` the value is the finite `max 0 (1 - d/s)`; with
`d = 0, s = 0` the division is NaN (`none`), which `1 - x` and
`Math.max` propagate; with `d > 0, s = 0` the division is `+Infinity`
and `Math.max(0, -Infinity) = 0` (distances here are nonnegative, so no
other sign arises; the unreachable `d < 0, s = 0` corner is also mapped
to 0). -/
def jsSimilarity (d s : ℚ) : Option ℚ :=
  if s = 0 then (if d = 0 then none else some 0)
  else some (max 0 (1 - d / s))

/-- JS `x >= t` where `x` may be NaN (`none`): every comparison against
NaN is false. -/
def jsGe (x : Option ℚ) (t : ℚ) : Bool :=
  match x with
  | none => false
  | some v => decide (t ≤ v)

/-- `compareFaceEncodings`: unequal lengths give
`{ match: false, similarity: 0 }`; otherwise the accumulated distance is
square-rooted, normalized by `Math.sqrt(length)` under JS number
semantics, and `match` is `similarity >= threshold` (false when the
similarity is NaN). -/
def compareFaceEncodings (sqrtFn : ℚ → ℚ) (encoding1 encoding2 : List ℚ)
    (threshold : ℚ) : CompareResult :=
  if encoding1.length ≠ encoding2.length then ⟨false, some 0, none⟩
  else
    let distance := sqrtFn (sumSqDiff encoding1 encoding2)
    let similarity := jsSimilarity distance (sqrtFn ((encoding1.length : ℚ)))
    ⟨jsGe similarity threshold, similarity, some distance⟩

theorem sumSqDiff_nonneg (e1 e2 : List ℚ) : 0 ≤ sumSqDiff e1 e2 := by
  induction e1 generalizing e2 with
  | nil => simp [sumSqDiff]
  | cons a t ih =>
    cases e2 with
    | nil => simp [sumSqDiff]
    | cons b t2 =>
      simp only [sumSqDiff, List.zipWith_cons_cons, List.sum_cons]
      have h1 : (0 : ℚ) ≤ (a - b) ^ 2 := sq_nonneg _
      have h2 := ih t2
      simp only [sumSqDiff] at h2
      linarith

theorem sumSqDiff_comm (e1 e2 : List ℚ) : sumSqDiff e1 e2 = sumSqDiff e2 e1 := by
  induction e1 generalizing e2 with
  | nil => cases e2 <;> simp [sumSqDiff]
  | cons a t ih =>
    cases e2 with
    | nil => simp [sumSqDiff]
    | cons b t2 =>
      simp only [sumSqDiff, List.zipWith_cons_cons, List.sum_cons]
      have h2 := ih t2
      simp only [sumSqDiff] at h2
      rw [h2]
      ring_nf

theorem jsGe_iff (x : Option ℚ) (t : ℚ) :
    jsGe x t = true ↔ ∃ v, x = some v ∧ t ≤ v := by
  cases x with
  | none => simp [jsGe]
  | some v => simp [jsGe]

theorem compareFaceEncodings_eq_of_length_eq (sqrtFn : ℚ → ℚ)
    (e1 e2 : List ℚ) (t : ℚ) (h : e1.length = e2.length) :
    compareFaceEncodings sqrtFn e1 e2 t =
      ⟨jsGe (jsSimilarity (sqrtFn (sumSqDiff e1 e2))
          (sqrtFn ((e1.length : ℚ)))) t,
       jsSimilarity (sqrtFn (sumSqDiff e1 e2)) (sqrtFn ((e1.length : ℚ))),
       some (sqrtFn (sumSqDiff e1 e2))⟩ := by
  simp [compareFaceEncodings, h]

/-- **C10 counterexample.** At the empty (equal-length) pair of encodings
the program divides 0 by `Math.sqrt(0) = 0`: the similarity is NaN — not
a number in [0, 1] — and `match` is false, refuting the claim that every
pair of equal-length encodings yields a similarity lying in [0, 1]. -/
theorem compareFaceEncodings_empty_nan :
    (compareFaceEncodings id ([] : List ℚ) [] compareDefaultThreshold).similarity =
      none ∧
    (compareFaceEncodings id ([] : List ℚ) [] compareDefaultThreshold).isMatch =
      false := by
  constructor <;> simp [compareFaceEncodings, jsSimilarity, jsGe, sumSqDiff]

/-- **C10 (amended).** For any square-root function nonnegative on
nonnegative inputs and positive on positive inputs (as `Math.sqrt` is):
unequal-length encodings compare to `match = false` with similarity 0
and no distance field; equal-length *nonempty* encodings always get a
numeric similarity in [0, 1]; empty encodings (where the square root of
0 is 0) get a NaN similarity with `match = false`; the comparison is
symmetric in its two encoding arguments; and for equal-length encodings
`match` holds iff the similarity is a number at least the threshold
(default 0.6). -/
theorem compareFaceEncodings_props (sqrtFn : ℚ → ℚ)
    (hpos : ∀ x : ℚ, 0 ≤ x → 0 ≤ sqrtFn x)
    (hpos2 : ∀ x : ℚ, 0 < x → 0 < sqrtFn x)
    (e1 e2 : List ℚ) (t : ℚ) :
    (e1.length ≠ e2.length →
        compareFaceEncodings sqrtFn e1 e2 t = ⟨false, some 0, none⟩) ∧
    (e1.length = e2.length → e1 ≠ [] →
        ∃ v, (compareFaceEncodings sqrtFn e1 e2 t).similarity = some v ∧
          0 ≤ v ∧ v ≤ 1) ∧
    (sqrtFn 0 = 0 → e1 = [] → e2 = [] →
        (compareFaceEncodings sqrtFn e1 e2 t).similarity = none ∧
        (compareFaceEncodings sqrtFn e1 e2 t).isMatch = false) ∧
    compareFaceEncodings sqrtFn e1 e2 t =
      compareFaceEncodings sqrtFn e2 e1 t ∧
    (e1.length = e2.length →
        ((compareFaceEncodings sqrtFn e1 e2 t).isMatch = true ↔
          ∃ v, (compareFaceEncodings sqrtFn e1 e2 t).similarity = some v ∧
            t ≤ v)) := by
  refine ⟨fun h => ?_, fun h hne => ?_, fun hz h1 h2 => ?_, ?_, fun h => ?_⟩
  · simp [compareFaceEncodings, h]
  · rw [compareFaceEncodings_eq_of_length_eq sqrtFn e1 e2 t h]
    have hlen : 0 < e1.length := List.length_pos.mpr hne
    have hsq : (0 : ℚ) < sqrtFn ((e1.length : ℚ)) :=
      hpos2 _ (by exact_mod_cast hlen)
    have hne0 : sqrtFn ((e1.length : ℚ)) ≠ 0 := ne_of_gt hsq
    have hd : 0 ≤ sqrtFn (sumSqDiff e1 e2) :=
      hpos _ (sumSqDiff_nonneg e1 e2)
    have hr : 0 ≤ sqrtFn (sumSqDiff e1 e2) / sqrtFn ((e1.length : ℚ)) :=
      div_nonneg hd hsq.le
    refine ⟨max 0 (1 - sqrtFn (sumSqDiff e1 e2) / sqrtFn ((e1.length : ℚ))),
      ?_, le_max_left 0 _, max_le (by norm_num) (by linarith)⟩
    simp [jsSimilarity, hne0]
  · subst h1
    subst h2
    rw [compareFaceEncodings_eq_of_length_eq sqrtFn [] [] t rfl]
    simp [jsSimilarity, jsGe, sumSqDiff, hz]
  · by_cases hlen : e1.length = e2.length
    · rw [compareFaceEncodings_eq_of_length_eq sqrtFn e1 e2 t hlen,
        compareFaceEncodings_eq_of_length_eq sqrtFn e2 e1 t hlen.symm,
        sumSqDiff_comm, hlen]
    · have hlen2 : e2.length ≠ e1.length := fun hh => hlen hh.symm
      simp [compareFaceEncodings, hlen, hlen2]
  · rw [compareFaceEncodings_eq_of_length_eq sqrtFn e1 e2 t h]
    exact jsGe_iff _ t

/-- Witness for amended C10 at concrete encodings, with the identity as
square root (nonnegative on nonnegatives, positive on positives, zero at
zero), exercising every branch of the theorem. -/
theorem compareFaceEncodings_props_witness :
    (∃ v, (compareFaceEncodings id [1, 0] [0, 1] compareDefaultThreshold).similarity =
        some v ∧ 0 ≤ v ∧ v ≤ 1) ∧
    compareFaceEncodings id [1, 0] [0, 1] compareDefaultThreshold =
      compareFaceEncodings id [0, 1] [1, 0] compareDefaultThreshold ∧
    compareFaceEncodings id [1, 0] [0, 0, 1] compareDefaultThreshold =
      ⟨false, some 0, none⟩ ∧
    ((compareFaceEncodings id [1, 0] [0, 1] compareDefaultThreshold).isMatch = true ↔
      ∃ v, (compareFaceEncodings id [1, 0] [0, 1] compareDefaultThreshold).similarity =
          some v ∧ compareDefaultThreshold ≤ v) ∧
    (compareFaceEncodings id ([] : List ℚ) [] compareDefaultThreshold).isMatch =
      false := by
  have h := compareFaceEncodings_props id (fun x hx => hx) (fun x hx => hx)
    [1, 0] [0, 1] compareDefaultThreshold
  have h2 := compareFaceEncodings_props id (fun x hx => hx) (fun x hx => hx)
    [1, 0] [0, 0, 1] compareDefaultThreshold
  have h3 := compareFaceEncodings_props id (fun x hx => hx) (fun x hx => hx)
    ([] : List ℚ) [] compareDefaultThreshold
  exact ⟨h.2.1 rfl (by simp), h.2.2.2.1, h2.1 (by decide), h.2.2.2.2 rfl,
    (h3.2.2.1 rfl rfl rfl).2⟩
